import Mathlib

/-!
Verification development for the compass-xr repository.

The repository is a small web application that shows which nearby buildings
lie in which compass direction.  Its numerical core lives in
`src/src/App.tsx` (heading smoothing, spherical bearing/distance, radial
marker layout) and `src/backend/index.ts` (the `/api/buildings` handler).

This file shallowly embeds that core: JS numbers are modelled as real
numbers (rationals where only field-and-floor arithmetic occurs), the JS
remainder operator as `jsMod`, `Math.atan2` as the argument of a complex
number, and the orientation-tracking lifecycle of `startOrientation` as an
explicit state machine with a labelled step relation.

The file is organised as definitions first (sections 1-6), then theorems.
-/

namespace CompassXR

/-! ## 1. JS numeric primitives -/

/-- Truncation toward zero: the implied quotient of the JS `%` operator. -/
def jsTrunc {α : Type*} [LinearOrderedField α] [FloorRing α] (x : α) : ℤ :=
  if x < 0 then ⌈x⌉ else ⌊x⌋

/-- The JS remainder operator `a % b` on numbers: the remainder after
truncated division, carrying the sign of the dividend.  Every use in the
repository has a nonnegative dividend and the positive divisor 360, where
this agrees with the mathematical modulus. -/
def jsMod {α : Type*} [LinearOrderedField α] [FloorRing α] (a b : α) : α :=
  a - b * jsTrunc (a / b)

/-! ## 2. RadialLayoutEngine: relative angle, ranks, markers

Both marker kinds in `App.tsx` map an absolute bearing and the current
heading to a signed screen angle with the same expression
`((raw + 540) % 360) - 180`; the heading signal may still be `null`, in
which case `heading() ?? 0` substitutes 0. -/

/-- Core relative-angle transform shared by both marker kinds
(`App.tsx` lines 343-344 and 371-372). -/
def relativeAngle {α : Type*} [LinearOrderedField α] [FloorRing α]
    (absoluteBearing heading : α) : α :=
  jsMod (absoluteBearing - heading + 540) 360 - 180

/-- Relative angle of a cardinal marker (`App.tsx` lines 341-345):
`dir.angle - (heading() ?? 0)` fed through the shared transform. -/
def cardinalRelative {α : Type*} [LinearOrderedField α] [FloorRing α]
    (angle : α) (heading : Option α) : α :=
  jsMod (angle - heading.getD 0 + 540) 360 - 180

/-- Relative angle of a building marker (`App.tsx` lines 369-373). -/
def buildingRelative {α : Type*} [LinearOrderedField α] [FloorRing α]
    (bearing : α) (heading : Option α) : α :=
  jsMod (bearing - heading.getD 0 + 540) 360 - 180

/-- The eight fixed cardinal marker angles (`App.tsx` lines 329-338). -/
def cardinalAngles : List ℚ := [0, 45, 90, 135, 180, 225, 270, 315]

/-- Ascending numeric sort, as JS `[...].sort((a, b) => a! - b!)` in
`beadingRanks` (App.tsx line 231).  For numbers the ascending sorted list
is unique (equal elements are identical values), so any correct sorting
algorithm embeds it; we use insertion sort for its clean lemmas. -/
def sortAsc {α : Type*} [LinearOrder α] (l : List α) : List α :=
  List.insertionSort (· ≤ ·) l

/-- The rank list of `beadingRanks` (App.tsx lines 229-235): each bearing
is mapped to `sorted.indexOf(bearing)`, the index of its first occurrence
in the ascending sorted copy. -/
def beadingRanksOf {α : Type*} [LinearOrder α] [DecidableEq α]
    (bearings : List α) : List ℕ :=
  bearings.map fun bearing => (sortAsc bearings).indexOf bearing

/-! ## 3. GeodesyEngine (App.tsx lines 160-182)

JS `Math.atan2(y, x)` on finite arguments is the argument of the complex
number `x + y*i`, with range `(-pi, pi]` and `atan2(0, 0) = 0`; we embed it
as `Complex.arg`. -/

/-- A coordinate pair in degrees, as the object literals passed to
`bearingBetween` and `distanceBetween`. -/
structure Coord where
  lat : ℝ
  lng : ℝ

/-- Degree-to-radian conversion `(deg * Math.PI) / 180` used throughout
`App.tsx`. -/
noncomputable def toRad (deg : ℝ) : ℝ := deg * Real.pi / 180

/-- JS `Math.atan2(y, x)` on finite inputs. -/
noncomputable def atan2 (y x : ℝ) : ℝ := Complex.arg ⟨x, y⟩

/-- Initial great-circle bearing (`bearingBetween`, App.tsx lines 160-169). -/
noncomputable def bearingBetween (p q : Coord) : ℝ :=
  let lat1 := toRad p.lat
  let lat2 := toRad q.lat
  let deltaLng := toRad (q.lng - p.lng)
  let y := Real.sin deltaLng * Real.cos lat2
  let x := Real.cos lat1 * Real.sin lat2 -
    Real.sin lat1 * Real.cos lat2 * Real.cos deltaLng
  let brng := atan2 y x * 180 / Real.pi
  jsMod (brng + 360) 360

/-- Haversine distance (`distanceBetween`, App.tsx lines 171-182). -/
noncomputable def distanceBetween (p q : Coord) : ℝ :=
  let lat1 := toRad p.lat
  let lat2 := toRad q.lat
  let deltaLat := toRad (q.lat - p.lat)
  let deltaLng := toRad (q.lng - p.lng)
  let a := Real.sin (deltaLat / 2) ^ 2 +
    Real.cos lat1 * Real.cos lat2 * Real.sin (deltaLng / 2) ^ 2
  let c := 2 * atan2 (Real.sqrt a) (Real.sqrt (1 - a))
  6371000 * c

/-! ## 4. HeadingEstimator (App.tsx lines 84-158) -/

/-- History capacity (`headingHistorySize`, App.tsx line 24). -/
def headingHistorySize : ℕ := 12

/-- One tick's history update (App.tsx lines 133-136): push the latest raw
value, then evict the oldest sample when past capacity. -/
def pushHistory (history : List ℝ) (value : ℝ) : List ℝ :=
  let h := history ++ [value]
  if headingHistorySize < h.length then h.tail else h

/-- The smoothing pass of `updateHeading` (App.tsx lines 137-145):
accumulate sine and cosine of each sample over one loop, take
`atan2` of the means, convert to degrees and normalize with
`(x + 360) % 360`. -/
noncomputable def codeSmoothed (history : List ℝ) : ℝ :=
  let sums := history.foldl
    (fun acc deg => (acc.1 + Real.sin (toRad deg), acc.2 + Real.cos (toRad deg)))
    ((0 : ℝ), (0 : ℝ))
  let avg := atan2 (sums.1 / history.length) (sums.2 / history.length)
  jsMod (avg * 180 / Real.pi + 360) 360

/-- Circular mean following the spec's words (section 4.2): convert each
sample to radians, accumulate the sine and cosine sums, take `atan2` of the
means, convert back to degrees and normalize to `[0, 360)`.  Kept separate
from `codeSmoothed` so the two can be compared. -/
noncomputable def circularMeanSpec (history : List ℝ) : ℝ :=
  let meanSin := (history.map fun d => Real.sin (toRad d)).sum / history.length
  let meanCos := (history.map fun d => Real.cos (toRad d)).sum / history.length
  jsMod (atan2 meanSin meanCos * 180 / Real.pi + 360) 360

/-- The last `n` elements of a list (used to characterize the bounded
history). -/
def lastN {α : Type*} (n : ℕ) (l : List α) : List α := l.drop (l.length - n)

/-- Error message set when the orientation capability is unsupported
(App.tsx line 87). -/
def msgUnsupported : String := "この端末は向き取得に対応していません。"

/-- Error message set when orientation consent is denied
(App.tsx line 122). -/
def msgDenied : String := "向きの取得が許可されていません。ボタンから許可してください。"

/-- A building record as served by the backend and consumed by App.tsx. -/
structure Building where
  id : ℤ
  label : String
  typ : String
  address : Option String
  lat : ℝ
  lng : ℝ

/-- The mutable state visible to the orientation-tracking code of `App`:
the signals `rawHeading`, `heading`, `orientationError`, the closure
variables `headingHistory`, `orientationActive`, `headingAnimationId`
(modelled as whether a frame callback is scheduled), whether the
`deviceorientationabsolute` listener is registered, and the
location-search signals (`coords`, `buildings`, `status`, `error`). -/
structure OState where
  rawHeading : Option ℝ
  heading : Option ℝ
  history : List ℝ
  orientationActive : Bool
  listenerRegistered : Bool
  animationScheduled : Bool
  orientationError : String
  coords : Option Coord
  buildings : List Building
  status : String
  searchError : String

/-- The initial state of the component (App.tsx lines 13-26). -/
def initState : OState :=
  { rawHeading := none
    heading := none
    history := []
    orientationActive := false
    listenerRegistered := false
    animationScheduled := false
    orientationError := ""
    coords := none
    buildings := []
    status := "現在地周辺の建物を取得します。"
    searchError := "" }

/-- The platform capabilities consulted by `startOrientation`: whether
`DeviceOrientationEvent` exists, whether `requestPermission` is a function,
and what it resolves to. -/
structure Env where
  supported : Bool
  needsPermission : Bool
  granted : Bool

/-- The value extracted from a `deviceorientationabsolute` event
(App.tsx lines 95-103): `webkitCompassHeading` when finite, otherwise
`(360 - alpha + 360) % 360` when `alpha` is non-null, otherwise nothing. -/
noncomputable def incomingValue (compass alpha : Option ℝ) : Option ℝ :=
  match compass with
  | some c => some c
  | none =>
    match alpha with
    | none => none
    | some a => some (jsMod (360 - a + 360) 360)

/-- The `handleOrientation` listener body (App.tsx lines 94-111): ignore
events with no usable value; otherwise store the raw value, initialize the
`heading` signal when it is still null, and clear any orientation error. -/
noncomputable def handleOrientation (s : OState) (compass alpha : Option ℝ) :
    OState :=
  match incomingValue compass alpha with
  | none => s
  | some v =>
    { s with
      rawHeading := some v
      heading := some (s.heading.getD v)
      orientationError := "" }

/-- The `updateHeading` frame callback (App.tsx lines 130-148): when a raw
value exists, push it onto the history and recompute the smoothed heading;
in every case schedule the next frame. -/
noncomputable def tickUpdate (s : OState) : OState :=
  match s.rawHeading with
  | none => { s with animationScheduled := true }
  | some v =>
    let h := pushHistory s.history v
    { s with history := h
             heading := some (codeSmoothed h)
             animationScheduled := true }

/-- The `startOrientation` entry point (App.tsx lines 84-158): clear the
error, bail out with a distinct message when unsupported, bail out silently
when already active, bail out with a distinct message when consent is
required and denied; otherwise become active with a cleared history, a
registered listener and a scheduled frame callback. -/
def startOrientation (s : OState) (env : Env) : OState :=
  let s0 := { s with orientationError := "" }
  if env.supported = false then { s0 with orientationError := msgUnsupported }
  else if s0.orientationActive = true then s0
  else if (env.needsPermission && !env.granted) = true then
    { s0 with orientationError := msgDenied }
  else
    { s0 with
      orientationActive := true
      history := []
      listenerRegistered := true
      animationScheduled := true }

/-- The `onCleanup` handler (App.tsx lines 150-157): in one operation,
unregister the orientation listener, mark tracking inactive, and cancel the
pending animation frame. -/
def cleanupOrientation (s : OState) : OState :=
  { s with
    listenerRegistered := false
    orientationActive := false
    animationScheduled := false }

/-- The Idle state of the spec's estimator state machine: not active, no
listener, no scheduled frame callback. -/
def IsIdle (s : OState) : Prop :=
  s.orientationActive = false ∧ s.listenerRegistered = false ∧
    s.animationScheduled = false

/-- A platform where orientation is supported and needs no consent. -/
def envAllGranted : Env := ⟨true, false, true⟩

/-- A platform with no orientation capability. -/
def envUnsupported : Env := ⟨false, false, false⟩

/-- A platform that requires consent and denies it. -/
def envDenied : Env := ⟨true, true, false⟩

/-- The events that can reach the orientation-tracking state. -/
inductive Ev where
  | start (env : Env)
  | ingest (compass alpha : Option ℝ)
  | tick
  | cleanup

/-- One labelled step of the orientation lifecycle.  An ingest event
requires the listener to be registered, and a tick requires a scheduled
frame callback. -/
inductive Step : OState → Ev → OState → Prop where
  | start (s : OState) (env : Env) : Step s (.start env) (startOrientation s env)
  | ingest (s : OState) (compass alpha : Option ℝ)
      (hreg : s.listenerRegistered = true) :
      Step s (.ingest compass alpha) (handleOrientation s compass alpha)
  | tick (s : OState) (hsch : s.animationScheduled = true) :
      Step s .tick (tickUpdate s)
  | cleanup (s : OState) : Step s .cleanup (cleanupOrientation s)

/-- A finite run of the lifecycle: the reflexive-transitive closure of
`Step`, recording the event trace. -/
inductive Run : OState → List Ev → OState → Prop where
  | nil (s : OState) : Run s [] s
  | cons {s s₁ s₂ : OState} {e : Ev} {tr : List Ev}
      (hstep : Step s e s₁) (hrun : Run s₁ tr s₂) : Run s (e :: tr) s₂

/-! ## 5. Marker rendering (App.tsx lines 328-405)

The radial view renders the eight cardinal markers and, for buildings, the
list `buildings().filter(v => v.label !== 'yes')`; each rendered building
marker reads `beadings()![index()]` and `beadingRanks()![index()]` where
`index()` is the position in the **filtered** list, while `beadings` and
`beadingRanks` (lines 218-235) are computed over the **unfiltered**
list. -/

/-- One rendered building marker with the data the view computes for it. -/
structure Marker where
  label : String
  bearingUsed : ℝ
  relAngle : ℝ
  verticalRank : ℕ
  verticalOffset : ℝ
  distance : ℝ

/-- The vertical deconfliction offset (App.tsx lines 374-379):
`(rank % 20) * 24 - (24 * 20) / 2`. -/
noncomputable def verticalOffsetOf (rank : ℕ) : ℝ :=
  (rank % 20 : ℕ) * 24 - (24 * 20) / 2

/-- The building-marker set of the radial view (App.tsx lines 365-405):
the placeholder filter is applied to the iterated list only, while the
bearing, rank and distance memos are indexed as in the source. -/
noncomputable def markersFor (user : Coord) (heading : Option ℝ)
    (buildings : List Building) : List Marker :=
  let bearings := buildings.map fun b => bearingBetween user ⟨b.lat, b.lng⟩
  let ranks := beadingRanksOf bearings
  let filtered := buildings.filter fun b => b.label ≠ "yes"
  filtered.enum.map fun ib =>
    let i := ib.1
    let b := ib.2
    { label := b.label
      bearingUsed := bearings.getD i 0
      relAngle := buildingRelative (bearings.getD i 0) heading
      verticalRank := ranks.getD i 0
      verticalOffset := verticalOffsetOf (ranks.getD i 0)
      distance := distanceBetween user ⟨b.lat, b.lng⟩ }

/-- The list view (`BuildingsList`, App.tsx lines 184-216) iterates the
building list itself, with no placeholder filter. -/
def listViewEntries (buildings : List Building) : List Building := buildings

/-- Test fixture: a user standing at the origin. -/
noncomputable def userOrigin : Coord := ⟨0, 0⟩

/-- Test fixture: a building slightly north of the origin carrying the
generic placeholder label `"yes"` that the radial view filters out. -/
noncomputable def bldPlaceholderNorth : Building := ⟨1, "yes", "building", none, 1/1000, 0⟩

/-- Test fixture: a named building slightly south of the origin. -/
noncomputable def bldSouth : Building := ⟨2, "B", "building", none, -(1/1000), 0⟩

/-- Test fixture: a named building at the same spot as
`bldPlaceholderNorth`. -/
noncomputable def bldNorthA : Building := ⟨3, "A", "building", none, 1/1000, 0⟩

/-! ## 6. Backend handler (backend/index.ts lines 44-98)

The query parameters are modelled after `Number(...)` parsing: `none`
stands for a parameter whose parse is not a finite number. -/

/-- The numeric parses of the `lat`, `lng` and `radius` query
parameters. -/
structure ApiReq where
  latNum : Option ℚ
  lngNum : Option ℚ
  radiusNum : Option ℚ

/-- The observable response of the `/api/buildings` handler. -/
inductive ApiResp where
  | badRequest
  | upstreamFailure
  | ok (radius : ℚ)

/-- The `/api/buildings` handler (backend/index.ts lines 44-98), paired
with whether the upstream Overpass service was contacted.  `upstreamOk`
models the `response.ok` of the upstream fetch. -/
def handleBuildings (q : ApiReq) (upstreamOk : Bool) : ApiResp × Bool :=
  match q.latNum, q.lngNum with
  | some _, some _ =>
    let radiusMeters := match q.radiusNum with | some r => r | none => 200
    let clampedRadius := min (max radiusMeters 50) 1000
    if upstreamOk then (.ok clampedRadius, true) else (.upstreamFailure, true)
  | none, _ => (.badRequest, false)
  | _, none => (.badRequest, false)

/-! ## Theorems -/

theorem jsTrunc_of_nonneg {α : Type*} [LinearOrderedField α] [FloorRing α]
    {x : α} (h : 0 ≤ x) : jsTrunc x = ⌊x⌋ := by
  simp [jsTrunc, not_lt.mpr h]

theorem jsMod_of_nonneg {α : Type*} [LinearOrderedField α] [FloorRing α]
    {a b : α} (ha : 0 ≤ a) (hb : 0 < b) : jsMod a b = b * Int.fract (a / b) := by
  rw [jsMod, jsTrunc_of_nonneg (div_nonneg ha hb.le), Int.fract]
  field_simp

theorem jsMod_nonneg {α : Type*} [LinearOrderedField α] [FloorRing α]
    {a b : α} (ha : 0 ≤ a) (hb : 0 < b) : 0 ≤ jsMod a b := by
  rw [jsMod_of_nonneg ha hb]
  exact mul_nonneg hb.le (Int.fract_nonneg _)

theorem jsMod_lt {α : Type*} [LinearOrderedField α] [FloorRing α]
    {a b : α} (ha : 0 ≤ a) (hb : 0 < b) : jsMod a b < b := by
  rw [jsMod_of_nonneg ha hb]
  calc b * Int.fract (a / b) < b * 1 := by
        exact mul_lt_mul_of_pos_left (Int.fract_lt_one _) hb
    _ = b := mul_one b

theorem jsMod_eval {α : Type*} [LinearOrderedField α] [FloorRing α]
    {a b : α} {k : ℤ} (ha : 0 ≤ a) (hb : 0 < b) (hk : ⌊a / b⌋ = k) :
    jsMod a b = a - b * k := by
  rw [jsMod, jsTrunc_of_nonneg (div_nonneg ha hb.le), hk]

theorem relativeAngle_lower {α : Type*} [LinearOrderedField α] [FloorRing α]
    {b h : α} (hb0 : 0 ≤ b) (hb1 : b < 360) (hh0 : 0 ≤ h) (hh1 : h < 360) :
    -180 ≤ relativeAngle b h := by
  have ha : (0 : α) ≤ b - h + 540 := by linarith
  have := jsMod_nonneg (b := (360 : α)) ha (by norm_num)
  simp only [relativeAngle]
  linarith

theorem relativeAngle_upper {α : Type*} [LinearOrderedField α] [FloorRing α]
    {b h : α} (hb0 : 0 ≤ b) (hb1 : b < 360) (hh0 : 0 ≤ h) (hh1 : h < 360) :
    relativeAngle b h < 180 := by
  have ha : (0 : α) ≤ b - h + 540 := by linarith
  have := jsMod_lt (b := (360 : α)) ha (by norm_num)
  simp only [relativeAngle]
  linarith

theorem relativeAngle_zero_oneEighty : relativeAngle (0 : ℝ) 180 = -180 := by
  have h : ((0 : ℝ) - 180 + 540) = 360 := by norm_num
  have hf : ⌊(360 : ℝ) / 360⌋ = 1 := by
    rw [show ((360 : ℝ) / 360) = 1 by norm_num, Int.floor_one]
  rw [relativeAngle, h, jsMod_eval (by norm_num) (by norm_num) hf]
  norm_num

theorem relativeAngle_cardinal_example : relativeAngle (350 : ℝ) 10 = -20 := by
  have h : ((350 : ℝ) - 10 + 540) = 880 := by norm_num
  have hf : ⌊(880 : ℝ) / 360⌋ = 2 := by
    rw [Int.floor_eq_iff]
    constructor <;> norm_num
  rw [relativeAngle, h, jsMod_eval (by norm_num) (by norm_num) hf]
  norm_num

/-- Claim C1, counterexample: with `absoluteBearing = 0` and `heading = 180`
(both inside `[0,360)`) the transform `((b - h + 540) mod 360) - 180` yields
`-180`, which is outside the claimed half-open-above range `(-180, 180]`, and
is not the `180` the claim predicts for this input. -/
theorem C1_relativeAngle_counterexample :
    (0 : ℝ) ≤ 0 ∧ (0 : ℝ) < 360 ∧ (0 : ℝ) ≤ 180 ∧ (180 : ℝ) < 360 ∧
    relativeAngle (0 : ℝ) 180 = -180 ∧
    ¬ (-180 < relativeAngle (0 : ℝ) 180 ∧ relativeAngle (0 : ℝ) 180 ≤ 180) := by
  refine ⟨le_refl 0, by norm_num, by norm_num, by norm_num,
    relativeAngle_zero_oneEighty, ?_⟩
  rw [relativeAngle_zero_oneEighty]
  intro hcontra
  exact absurd hcontra.1 (by norm_num)

/-- Claim C1 (amended): for every absoluteBearing and heading in `[0,360)`
the relative angle lies in the half-open-below range `[-180, 180)`;
`absoluteBearing = 0, heading = 180` yields `-180` (not `180`) and
`absoluteBearing = 350, heading = 10` yields `-20`; the cardinal-marker
transform (applied to the eight fixed angles 0/45/90/135/180/225/270/315)
and the building-marker transform are the same function. -/
theorem C1_relativeAngle_range {b h : ℝ} (hb0 : 0 ≤ b) (hb1 : b < 360)
    (hh0 : 0 ≤ h) (hh1 : h < 360) :
    (-180 ≤ relativeAngle b h ∧ relativeAngle b h < 180) ∧
    relativeAngle (0 : ℝ) 180 = -180 ∧ relativeAngle (350 : ℝ) 10 = -20 ∧
    (∀ a : ℝ, ∀ hd : Option ℝ, cardinalRelative a hd = buildingRelative a hd ∧
      buildingRelative a hd = relativeAngle a (hd.getD 0)) ∧
    (∀ a : ℚ, a ∈ cardinalAngles → ∀ hd : Option ℚ,
      cardinalRelative a hd = buildingRelative a hd) := by
  refine ⟨⟨relativeAngle_lower hb0 hb1 hh0 hh1, relativeAngle_upper hb0 hb1 hh0 hh1⟩,
    relativeAngle_zero_oneEighty, relativeAngle_cardinal_example,
    fun a hd => ⟨rfl, rfl⟩, fun a _ hd => rfl⟩

/-- Witness for the amended C1 theorem at `absoluteBearing = 10`,
`heading = 20`. -/
theorem C1_relativeAngle_range_witness :
    (-180 ≤ relativeAngle (10 : ℝ) 20 ∧ relativeAngle (10 : ℝ) 20 < 180) ∧
    relativeAngle (0 : ℝ) 180 = -180 ∧ relativeAngle (350 : ℝ) 10 = -20 ∧
    (∀ a : ℝ, ∀ hd : Option ℝ, cardinalRelative a hd = buildingRelative a hd ∧
      buildingRelative a hd = relativeAngle a (hd.getD 0)) ∧
    (∀ a : ℚ, a ∈ cardinalAngles → ∀ hd : Option ℚ,
      cardinalRelative a hd = buildingRelative a hd) :=
  C1_relativeAngle_range (by norm_num) (by norm_num) (by norm_num) (by norm_num)

theorem atan2_zero_zero : atan2 0 0 = 0 := by
  have h : (⟨0, 0⟩ : ℂ) = 0 := Complex.ext rfl rfl
  rw [atan2, h, Complex.arg_zero]

theorem atan2_zero_of_pos {x : ℝ} (hx : 0 < x) : atan2 0 x = 0 := by
  have h : (⟨x, 0⟩ : ℂ) = (x : ℝ) := Complex.ext rfl rfl
  rw [atan2, h, Complex.arg_ofReal_of_nonneg hx.le]

theorem atan2_zero_of_neg {x : ℝ} (hx : x < 0) : atan2 0 x = Real.pi := by
  have h : (⟨x, 0⟩ : ℂ) = (x : ℝ) := Complex.ext rfl rfl
  rw [atan2, h, Complex.arg_ofReal_of_neg hx]

theorem atan2_mem_Ioc (y x : ℝ) : -Real.pi < atan2 y x ∧ atan2 y x ≤ Real.pi :=
  ⟨Complex.neg_pi_lt_arg _, Complex.arg_le_pi _⟩

theorem atan2_nonneg_of_nonneg {y x : ℝ} (hy : 0 ≤ y) : 0 ≤ atan2 y x :=
  Complex.arg_nonneg_iff.mpr hy

theorem jsMod_360_360 : jsMod (360 : ℝ) 360 = 0 := by
  have hf : ⌊(360 : ℝ) / 360⌋ = 1 := by
    rw [show ((360 : ℝ) / 360) = 1 by norm_num, Int.floor_one]
  rw [jsMod_eval (by norm_num) (by norm_num) hf]
  norm_num

theorem bearingBetween_self (p : Coord) : bearingBetween p p = 0 := by
  have hz : toRad (p.lng - p.lng) = 0 := by simp [toRad]
  simp only [bearingBetween, hz, Real.sin_zero, Real.cos_zero, zero_mul,
    mul_one]
  rw [show Real.cos (toRad p.lat) * Real.sin (toRad p.lat) -
      Real.sin (toRad p.lat) * Real.cos (toRad p.lat) = 0 by ring,
    atan2_zero_zero, zero_mul, zero_div, zero_add, jsMod_360_360]

theorem scaled_atan2_bounds (y x : ℝ) :
    -180 < atan2 y x * 180 / Real.pi ∧ atan2 y x * 180 / Real.pi ≤ 180 := by
  have hpi : 0 < Real.pi := Real.pi_pos
  obtain ⟨h1, h2⟩ := atan2_mem_Ioc y x
  have e1 : atan2 y x * 180 / Real.pi = atan2 y x * (180 / Real.pi) := by
    ring
  constructor
  · rw [e1]
    have hstep := mul_lt_mul_of_pos_right h1
      (show (0 : ℝ) < 180 / Real.pi by positivity)
    calc (-180 : ℝ) = -Real.pi * (180 / Real.pi) := by
          field_simp
          ring
      _ < _ := hstep
  · rw [e1]
    have hstep := mul_le_mul_of_nonneg_right h2
      (show (0 : ℝ) ≤ 180 / Real.pi by positivity)
    calc atan2 y x * (180 / Real.pi) ≤ Real.pi * (180 / Real.pi) := hstep
      _ = 180 := by field_simp

theorem bearingBetween_nonneg (p q : Coord) : 0 ≤ bearingBetween p q := by
  simp only [bearingBetween]
  apply jsMod_nonneg _ (by norm_num)
  have h := (scaled_atan2_bounds (Real.sin (toRad (q.lng - p.lng)) *
    Real.cos (toRad q.lat))
    (Real.cos (toRad p.lat) * Real.sin (toRad q.lat) -
      Real.sin (toRad p.lat) * Real.cos (toRad q.lat) *
        Real.cos (toRad (q.lng - p.lng)))).1
  linarith

theorem bearingBetween_lt (p q : Coord) : bearingBetween p q < 360 := by
  simp only [bearingBetween]
  apply jsMod_lt _ (by norm_num)
  have h := (scaled_atan2_bounds (Real.sin (toRad (q.lng - p.lng)) *
    Real.cos (toRad q.lat))
    (Real.cos (toRad p.lat) * Real.sin (toRad q.lat) -
      Real.sin (toRad p.lat) * Real.cos (toRad q.lat) *
        Real.cos (toRad (q.lng - p.lng)))).1
  linarith

theorem distanceBetween_self (p : Coord) : distanceBetween p p = 0 := by
  have hz : toRad (p.lat - p.lat) = 0 := by simp [toRad]
  have hz' : toRad (p.lng - p.lng) = 0 := by simp [toRad]
  simp only [distanceBetween, hz, hz', zero_div, Real.sin_zero]
  rw [show (0 : ℝ) ^ 2 + Real.cos (toRad p.lat) * Real.cos (toRad p.lat) *
      0 ^ 2 = 0 by ring]
  rw [Real.sqrt_zero, sub_zero, Real.sqrt_one]
  rw [show atan2 0 1 = 0 from atan2_zero_of_pos one_pos]
  ring

theorem distanceBetween_nonneg (p q : Coord) : 0 ≤ distanceBetween p q := by
  simp only [distanceBetween]
  have h := atan2_nonneg_of_nonneg
    (x := Real.sqrt (1 - (Real.sin (toRad (q.lat - p.lat) / 2) ^ 2 +
      Real.cos (toRad p.lat) * Real.cos (toRad q.lat) *
        Real.sin (toRad (q.lng - p.lng) / 2) ^ 2)))
    (Real.sqrt_nonneg (Real.sin (toRad (q.lat - p.lat) / 2) ^ 2 +
      Real.cos (toRad p.lat) * Real.cos (toRad q.lat) *
        Real.sin (toRad (q.lng - p.lng) / 2) ^ 2))
  linarith

/-- Claim C5: for every coordinate the bearing and distance from a point to
itself are 0 (the identical-endpoints case reaches `atan2(0,0)`, which is 0,
so no NaN propagates), and for every pair of coordinates the bearing lies
in `[0, 360)` and the distance is nonnegative. -/
theorem C5_geodesy_identical_and_ranges (p q : Coord) :
    bearingBetween p p = 0 ∧ distanceBetween p p = 0 ∧
    (0 ≤ bearingBetween p q ∧ bearingBetween p q < 360) ∧
    0 ≤ distanceBetween p q :=
  ⟨bearingBetween_self p, distanceBetween_self p,
    ⟨bearingBetween_nonneg p q, bearingBetween_lt p q⟩,
    distanceBetween_nonneg p q⟩

theorem foldl_sin_cos (l : List ℝ) (a b : ℝ) :
    l.foldl
      (fun acc deg => (acc.1 + Real.sin (toRad deg), acc.2 + Real.cos (toRad deg)))
      (a, b) =
    (a + (l.map fun d => Real.sin (toRad d)).sum,
     b + (l.map fun d => Real.cos (toRad d)).sum) := by
  induction l generalizing a b with
  | nil => simp
  | cons d l ih =>
    simp only [List.foldl_cons, List.map_cons, List.sum_cons, ih]
    simp only [Prod.mk.injEq]
    exact ⟨by ring, by ring⟩

theorem codeSmoothed_eq_circularMeanSpec (history : List ℝ) :
    codeSmoothed history = circularMeanSpec history := by
  simp only [codeSmoothed, circularMeanSpec, foldl_sin_cos, zero_add]

theorem sin_toRad_350 : Real.sin (toRad 350) = -Real.sin (toRad 10) := by
  rw [show toRad 350 = -(toRad 10) + 2 * Real.pi by
    simp only [toRad]
    ring]
  rw [Real.sin_add_two_pi, Real.sin_neg]

theorem cos_toRad_350 : Real.cos (toRad 350) = Real.cos (toRad 10) := by
  rw [show toRad 350 = -(toRad 10) + 2 * Real.pi by
    simp only [toRad]
    ring]
  rw [Real.cos_add_two_pi, Real.cos_neg]

theorem cos_toRad_10_pos : 0 < Real.cos (toRad 10) := by
  apply Real.cos_pos_of_mem_Ioo
  constructor
  · simp only [toRad]
    nlinarith [Real.pi_pos]
  · simp only [toRad]
    nlinarith [Real.pi_pos]

theorem codeSmoothed_wraparound : codeSmoothed [350, 10] = 0 := by
  simp only [codeSmoothed, List.foldl_cons, List.foldl_nil, List.length_cons,
    List.length_nil]
  rw [show ((0 : ℝ), (0 : ℝ)).1 + Real.sin (toRad 350) = Real.sin (toRad 350)
      by simp]
  rw [show ((0 : ℝ), (0 : ℝ)).2 + Real.cos (toRad 350) = Real.cos (toRad 350)
      by simp]
  rw [sin_toRad_350, cos_toRad_350]
  rw [show -Real.sin (toRad 10) + Real.sin (toRad 10) = 0 by ring]
  rw [show Real.cos (toRad 10) + Real.cos (toRad 10) = 2 * Real.cos (toRad 10)
      by ring]
  rw [show ((0 + 1 + 1 : ℕ) : ℝ) = 2 by norm_num]
  rw [zero_div, show (2 : ℝ) * Real.cos (toRad 10) / 2 = Real.cos (toRad 10)
    by ring]
  rw [atan2_zero_of_pos cos_toRad_10_pos, zero_mul, zero_div, zero_add,
    jsMod_360_360]

/-- Claim C3: the smoothed heading written on each re-sampling tick (when a
raw sample exists) is exactly the circular mean, as the spec describes it,
of the history after the push; and that circular mean for the sample set
`[350, 10]` is `0`, not `180`. -/
theorem C3_tick_recomputes_circular_mean :
    (∀ (s : OState) (v : ℝ), s.rawHeading = some v →
      (tickUpdate s).heading =
        some (circularMeanSpec (pushHistory s.history v))) ∧
    codeSmoothed [350, 10] = 0 ∧ circularMeanSpec [350, 10] = 0 := by
  refine ⟨?_, codeSmoothed_wraparound, ?_⟩
  · intro s v hv
    simp only [tickUpdate, hv, codeSmoothed_eq_circularMeanSpec]
  · rw [← codeSmoothed_eq_circularMeanSpec]
    exact codeSmoothed_wraparound

/-- Witness for C3 at a concrete state holding history `[350]` and raw
sample `10`. -/
theorem C3_tick_recomputes_circular_mean_witness :
    (tickUpdate { initState with
      rawHeading := some 10
      history := [350] }).heading =
      some (circularMeanSpec
        (pushHistory ({ initState with
          rawHeading := some 10
          history := [350] } : OState).history 10)) :=
  C3_tick_recomputes_circular_mean.1 _ 10 rfl

theorem pushHistory_length_le {h : List ℝ} (v : ℝ) (hle : h.length ≤ 12) :
    (pushHistory h v).length ≤ 12 := by
  simp only [pushHistory, headingHistorySize]
  split
  · simp only [List.length_tail, List.length_append, List.length_singleton]
    omega
  · rename_i hcond
    simp only [List.length_append, List.length_singleton] at hcond ⊢
    omega

theorem foldl_pushHistory :
    ∀ (l h : List ℝ), h.length ≤ 12 →
      List.foldl pushHistory h l = lastN 12 (h ++ l) := by
  intro l
  induction l with
  | nil =>
    intro h hle
    simp only [List.foldl_nil, lastN, List.append_nil,
      Nat.sub_eq_zero_of_le hle, List.drop_zero]
  | cons v l ih =>
    intro h hle
    rw [List.foldl_cons, ih (pushHistory h v) (pushHistory_length_le v hle)]
    by_cases hc : 12 < (h ++ [v]).length
    · have h12 : h.length = 12 := by
        simp only [List.length_append, List.length_singleton] at hc
        omega
      obtain ⟨x, h', rfl⟩ : ∃ x h', h = x :: h' := by
        cases h with
        | nil => simp at h12
        | cons x h' => exact ⟨x, h', rfl⟩
      have hp : pushHistory (x :: h') v = h' ++ [v] := by
        simp only [pushHistory, headingHistorySize]
        rw [if_pos]
        · rfl
        · simpa using hc
      have hlen1 : ((h' ++ [v]) ++ l).length - 12 = l.length := by
        simp at h12 ⊢
        omega
      have hlen2 : ((x :: h') ++ v :: l).length - 12 = l.length + 1 := by
        simp at h12 ⊢
        omega
      rw [hp]
      simp only [lastN, hlen1, hlen2]
      rw [show (x :: h') ++ v :: l = x :: (h' ++ v :: l) from rfl,
        List.drop_succ_cons,
        show h' ++ v :: l = (h' ++ [v]) ++ l by simp]
    · have hp : pushHistory h v = h ++ [v] := by
        simp only [pushHistory, headingHistorySize]
        rw [if_neg]
        simpa using hc
      rw [hp, List.append_assoc, List.singleton_append]

/-- Claim C6: the heading history never exceeds its capacity of 12
(pushing onto a history of at most 12 samples leaves at most 12), and
after 13 pushes into an initially empty history only the 12 most recent
samples remain, so the first sample no longer influences the smoothed
output: the fold over `first :: rest` with `rest` of length 12 equals
`rest` for any first sample. -/
theorem C6_history_capacity :
    (∀ (h : List ℝ) (v : ℝ), h.length ≤ headingHistorySize →
      (pushHistory h v).length ≤ headingHistorySize) ∧
    (∀ (a b : ℝ) (rest : List ℝ), rest.length = 12 →
      List.foldl pushHistory [] (a :: rest) = rest ∧
      codeSmoothed (List.foldl pushHistory [] (a :: rest)) =
        codeSmoothed (List.foldl pushHistory [] (b :: rest))) := by
  have key : ∀ (a : ℝ) (rest : List ℝ), rest.length = 12 →
      List.foldl pushHistory [] (a :: rest) = rest := by
    intro a rest hlen
    have hp : pushHistory [] a = [a] := by
      simp [pushHistory, headingHistorySize]
    rw [List.foldl_cons, hp,
      foldl_pushHistory rest [a] (by simp)]
    simp only [lastN, List.singleton_append, List.length_cons, hlen,
      List.drop_succ_cons, List.drop_zero]
  constructor
  · intro h v hle
    exact pushHistory_length_le v hle
  · intro a b rest hlen
    refine ⟨key a rest hlen, ?_⟩
    rw [key a rest hlen, key b rest hlen]

/-- Witness for C6: first samples 0 and 1 followed by twelve samples of 5. -/
theorem C6_history_capacity_witness :
    ((List.replicate 12 (5 : ℝ)).length = 12 ∧
      ([(350 : ℝ), 10]).length ≤ headingHistorySize) ∧
    List.foldl pushHistory [] ((0 : ℝ) :: List.replicate 12 (5 : ℝ)) =
      List.replicate 12 (5 : ℝ) ∧
    codeSmoothed (List.foldl pushHistory [] ((0 : ℝ) :: List.replicate 12 5)) =
      codeSmoothed (List.foldl pushHistory [] ((1 : ℝ) :: List.replicate 12 5)) :=
  ⟨⟨by simp, by simp [headingHistorySize]⟩,
    (C6_history_capacity.2 0 1 (List.replicate 12 5) (by simp)).1,
    (C6_history_capacity.2 0 1 (List.replicate 12 5) (by simp)).2⟩

/-- Claim C4, counterexample: starting from the initial (Idle) state, a
successful start followed by a single ingested raw sample of 42 — with no
tick in the trace — already leaves the smoothed-heading signal at `some 42`:
`handleOrientation` initializes `heading` from the first raw sample, so
SmoothedHeading does not remain null until the first re-sampling tick. -/
theorem C4_ingest_sets_heading_counterexample :
    Run initState [Ev.start envAllGranted, Ev.ingest (some 42) none]
      (handleOrientation (startOrientation initState envAllGranted)
        (some 42) none) ∧
    (handleOrientation (startOrientation initState envAllGranted)
      (some 42) none).heading = some 42 ∧
    Ev.tick ∉ [Ev.start envAllGranted, Ev.ingest (some 42) none] := by
  refine ⟨?_, ?_, ?_⟩
  · exact Run.cons (Step.start _ _)
      (Run.cons (Step.ingest _ _ _ rfl) (Run.nil _))
  · simp [handleOrientation, incomingValue, startOrientation, envAllGranted,
      initState]
  · simp

/-- Claim C4 (amended): ingesting a raw sensor sample records it as the
latest-known raw value and never itself triggers the circular-mean
recomputation (the history and the frame scheduling are untouched); but
when the smoothed heading is still null, the sample immediately
initializes it to the raw value — so the smoothed heading is non-null
right after the first usable sample, before any tick — and when it is
already non-null, ingestion leaves it unchanged.  An event carrying no
usable value leaves the state unchanged. -/
theorem C4_ingest_only_records (s : OState) (compass alpha : Option ℝ) :
    (incomingValue compass alpha = none →
      handleOrientation s compass alpha = s) ∧
    (∀ v : ℝ, incomingValue compass alpha = some v →
      (handleOrientation s compass alpha).rawHeading = some v ∧
      (handleOrientation s compass alpha).history = s.history ∧
      (handleOrientation s compass alpha).animationScheduled =
        s.animationScheduled ∧
      (s.heading = none → (handleOrientation s compass alpha).heading = some v) ∧
      (∀ h₀ : ℝ, s.heading = some h₀ →
        (handleOrientation s compass alpha).heading = some h₀)) := by
  constructor
  · intro hnone
    simp [handleOrientation, hnone]
  · intro v hv
    simp only [handleOrientation, hv]
    refine ⟨trivial, trivial, trivial, ?_, ?_⟩
    · intro hh
      simp [hh]
    · intro h₀ hh
      simp [hh]

/-- Witness for the amended C4 theorem: ingesting compass value 7 into the
initial state. -/
theorem C4_ingest_only_records_witness :
    incomingValue (some 7) none = some 7 ∧
    (handleOrientation initState (some 7) none).rawHeading = some 7 ∧
    (handleOrientation initState (some 7) none).history = initState.history ∧
    (handleOrientation initState (some 7) none).animationScheduled =
      initState.animationScheduled ∧
    (handleOrientation initState (some 7) none).heading = some 7 := by
  have h := (C4_ingest_only_records initState (some 7) none).2 7 rfl
  exact ⟨rfl, h.1, h.2.1, h.2.2.1, h.2.2.2.1 rfl⟩

theorem handleOrientation_animationScheduled (s : OState)
    (compass alpha : Option ℝ) :
    (handleOrientation s compass alpha).animationScheduled =
      s.animationScheduled := by
  cases hv : incomingValue compass alpha <;> simp [handleOrientation, hv]

theorem run_no_start_no_tick {s : OState} {tr : List Ev} {s' : OState}
    (hrun : Run s tr s') (hsch : s.animationScheduled = false)
    (hnostart : ∀ env, Ev.start env ∉ tr) : Ev.tick ∉ tr := by
  induction hrun with
  | nil => simp
  | @cons s s₁ s₂ e tr hstep hrun ih =>
    cases hstep with
    | start env => exact absurd (List.mem_cons_self _ _) (hnostart env)
    | ingest compass alpha hreg =>
      intro hmem
      rcases List.mem_cons.mp hmem with h | h
      · exact Ev.noConfusion h
      · refine absurd h (ih ?_ ?_)
        · rw [handleOrientation_animationScheduled]
          exact hsch
        · exact fun env hm => hnostart env (List.mem_cons_of_mem _ hm)
    | tick hsch' =>
      rw [hsch] at hsch'
      exact Bool.noConfusion hsch'
    | cleanup =>
      intro hmem
      rcases List.mem_cons.mp hmem with h | h
      · exact Ev.noConfusion h
      · refine absurd h (ih rfl ?_)
        exact fun env hm => hnostart env (List.mem_cons_of_mem _ hm)

/-- Claim C9: the cleanup handler, in one operation, unregisters the
orientation listener, marks tracking inactive and cancels the pending
frame callback; and in any run that starts from a cleaned-up state and
contains no new start event, no tick ever fires. -/
theorem C9_cleanup_cancels (s : OState) :
    ((cleanupOrientation s).listenerRegistered = false ∧
      (cleanupOrientation s).animationScheduled = false ∧
      (cleanupOrientation s).orientationActive = false) ∧
    (∀ (tr : List Ev) (s' : OState), Run (cleanupOrientation s) tr s' →
      (∀ env, Ev.start env ∉ tr) → Ev.tick ∉ tr) := by
  refine ⟨⟨rfl, rfl, rfl⟩, ?_⟩
  intro tr s' hrun hnostart
  exact run_no_start_no_tick hrun rfl hnostart

/-- Witness for C9: the one-event run consisting of a second cleanup. -/
theorem C9_cleanup_cancels_witness :
    Run (cleanupOrientation initState) [Ev.cleanup]
      (cleanupOrientation (cleanupOrientation initState)) ∧
    Ev.tick ∉ [Ev.cleanup] := by
  have hrun : Run (cleanupOrientation initState) [Ev.cleanup]
      (cleanupOrientation (cleanupOrientation initState)) :=
    Run.cons (Step.cleanup _) (Run.nil _)
  have hns : ∀ env, Ev.start env ∉ [Ev.cleanup] := by
    intro env
    simp
  exact ⟨hrun, (C9_cleanup_cancels initState).2 [Ev.cleanup] _ hrun hns⟩

/-- Claim C8: from Idle, a start on an unsupported platform, or on a
platform that requires consent and denies it, sets the corresponding
distinct error message and changes nothing else: the state stays Idle (no
listener, no scheduled frame, not active) and the location-search signals
are untouched. -/
theorem C8_start_failure (s : OState) (env : Env) (hidle : IsIdle s) :
    (env.supported = false →
      startOrientation s env = { s with orientationError := msgUnsupported } ∧
      IsIdle (startOrientation s env)) ∧
    (env.supported = true → env.needsPermission = true → env.granted = false →
      startOrientation s env = { s with orientationError := msgDenied } ∧
      IsIdle (startOrientation s env)) ∧
    msgUnsupported ≠ msgDenied := by
  obtain ⟨hact, hlis, hsch⟩ := hidle
  refine ⟨?_, ?_, by decide⟩
  · intro hsup
    have he : startOrientation s env =
        { s with orientationError := msgUnsupported } := by
      simp [startOrientation, hsup]
    exact ⟨he, by rw [he]; exact ⟨hact, hlis, hsch⟩⟩
  · intro hsup hneed hgr
    have he : startOrientation s env =
        { s with orientationError := msgDenied } := by
      simp [startOrientation, hsup, hneed, hgr, hact]
    exact ⟨he, by rw [he]; exact ⟨hact, hlis, hsch⟩⟩

/-- Witness for C8: the initial state with the unsupported and the denying
platform. -/
theorem C8_start_failure_witness :
    startOrientation initState envUnsupported =
      { initState with orientationError := msgUnsupported } ∧
    startOrientation initState envDenied =
      { initState with orientationError := msgDenied } :=
  ⟨((C8_start_failure initState envUnsupported ⟨rfl, rfl, rfl⟩).1 rfl).1,
    ((C8_start_failure initState envDenied ⟨rfl, rfl, rfl⟩).2.1 rfl rfl rfl).1⟩

theorem sortAsc_perm {α : Type*} [LinearOrder α] (l : List α) :
    List.Perm (sortAsc l) l :=
  List.perm_insertionSort _ l

theorem sortAsc_sorted {α : Type*} [LinearOrder α] (l : List α) :
    List.Sorted (· ≤ ·) (sortAsc l) :=
  List.sorted_insertionSort _ l

theorem indexOf_mem_inj {α : Type*} [DecidableEq α] {m : List α} {x y : α}
    (hx : x ∈ m) (hy : y ∈ m)
    (h : List.indexOf x m = List.indexOf y m) : x = y := by
  have hx' := List.indexOf_lt_length.mpr hx
  have hy' := List.indexOf_lt_length.mpr hy
  calc x = m.get ⟨List.indexOf x m, hx'⟩ := (List.indexOf_get hx').symm
    _ = m.get ⟨List.indexOf y m, hy'⟩ := by
        apply congrArg m.get
        exact Fin.ext h
    _ = y := List.indexOf_get hy'

theorem indexOf_lt_of_sorted {α : Type*} [LinearOrder α] [DecidableEq α]
    {m : List α} (hs : List.Sorted (· ≤ ·) m) {x y : α}
    (hx : x ∈ m) (hy : y ∈ m) (hxy : x < y) :
    List.indexOf x m < List.indexOf y m := by
  by_contra hle
  push_neg at hle
  rcases lt_or_eq_of_le hle with hlt | heq
  · have hx' := List.indexOf_lt_length.mpr hx
    have hy' := List.indexOf_lt_length.mpr hy
    have hrel := hs.rel_get_of_lt
      (a := ⟨List.indexOf y m, hy'⟩) (b := ⟨List.indexOf x m, hx'⟩)
      (Fin.mk_lt_mk.mpr hlt)
    rw [List.indexOf_get hx', List.indexOf_get hy'] at hrel
    exact absurd hxy (not_lt.mpr hrel)
  · exact absurd hxy (by rw [indexOf_mem_inj hy hx heq]; exact lt_irrefl x)

theorem beadingRanksOf_perm {α : Type*} [LinearOrder α] [DecidableEq α]
    {l : List α} (hnd : l.Nodup) :
    List.Perm (beadingRanksOf l) (List.range l.length) := by
  have hperm : List.Perm (sortAsc l) l := sortAsc_perm l
  have hlen : (sortAsc l).length = l.length := hperm.length_eq
  have hnodup_ranks : (beadingRanksOf l).Nodup := by
    apply List.Nodup.map_on _ hnd
    intro x hx y hy hxy
    exact indexOf_mem_inj (hperm.mem_iff.mpr hx) (hperm.mem_iff.mpr hy) hxy
  have hsubset : beadingRanksOf l ⊆ List.range l.length := by
    intro r hr
    rcases List.mem_map.mp hr with ⟨x, hx, rfl⟩
    apply List.mem_range.mpr
    rw [← hlen]
    exact List.indexOf_lt_length.mpr (hperm.mem_iff.mpr hx)
  have hlen2 : (List.range l.length).length ≤ (beadingRanksOf l).length := by
    simp [beadingRanksOf]
  exact (hnodup_ranks.subperm hsubset).perm_of_length_le hlen2

theorem beadingRanksOf_pair_same (β : ℝ) :
    beadingRanksOf [β, β] = [0, 0] := by
  simp [beadingRanksOf, sortAsc, List.insertionSort, List.orderedInsert]

theorem markersFor_rank_heading_invariant (user : Coord)
    (h₁ h₂ : Option ℝ) (buildings : List Building) :
    (markersFor user h₁ buildings).map Marker.verticalRank =
      (markersFor user h₂ buildings).map Marker.verticalRank := by
  simp only [markersFor, List.map_map]
  rfl

/-- Claim C2, counterexample: two buildings at the same location (bearing
computed from the same user coordinate) receive the same verticalRank, so
for this list of size 2 the ranks `[0, 0]` are not a permutation of
`{0, 1}`. -/
theorem C2_verticalRank_counterexample :
    beadingRanksOf
      (List.map (fun b => bearingBetween userOrigin ⟨b.lat, b.lng⟩)
        [bldNorthA, bldNorthA]) = [0, 0] ∧
    ¬ List.Perm (beadingRanksOf
        (List.map (fun b => bearingBetween userOrigin ⟨b.lat, b.lng⟩)
          [bldNorthA, bldNorthA]))
      (List.range ([bldNorthA, bldNorthA] : List Building).length) := by
  have h : beadingRanksOf
      (List.map (fun b => bearingBetween userOrigin ⟨b.lat, b.lng⟩)
        [bldNorthA, bldNorthA]) = [0, 0] := by
    rw [List.map_cons, List.map_cons, List.map_nil]
    exact beadingRanksOf_pair_same _
  refine ⟨h, ?_⟩
  rw [h]
  intro hperm
  have := hperm.length_eq
  have h1 : (1 : ℕ) ∈ List.range 2 := by decide
  have h0 : (1 : ℕ) ∉ ([0, 0] : List ℕ) := by decide
  exact h0 (hperm.mem_iff.mpr h1)

/-- Claim C2 (amended): for a building list whose bearings are pairwise
distinct, the verticalRank values are a permutation of `0..N-1`; the rank
of a bearing is its index in the ascending sorted order, so strictly
smaller bearings receive strictly smaller ranks; the rank assignment does
not depend on the heading; and the nearly identical bearings 10 and 10.5
receive the distinct adjacent ranks 0 and 1.  Buildings with exactly equal
bearings, however, share a rank. -/
theorem C2_verticalRank_permutation {l : List ℝ} (hnd : l.Nodup) :
    List.Perm (beadingRanksOf l) (List.range l.length) ∧
    beadingRanksOf l = l.map (fun b => (sortAsc l).indexOf b) ∧
    (∀ x ∈ l, ∀ y ∈ l, x < y →
      (sortAsc l).indexOf x < (sortAsc l).indexOf y) ∧
    (∀ (user : Coord) (h₁ h₂ : Option ℝ) (buildings : List Building),
      (markersFor user h₁ buildings).map Marker.verticalRank =
        (markersFor user h₂ buildings).map Marker.verticalRank) ∧
    beadingRanksOf [(10 : ℚ), 21 / 2] = [0, 1] := by
  have hex : beadingRanksOf [(10 : ℚ), 21 / 2] = [0, 1] := by
    have hsort : sortAsc [(10 : ℚ), 21 / 2] = [10, 21 / 2] := by
      norm_num [sortAsc, List.insertionSort, List.orderedInsert]
    simp only [beadingRanksOf, List.map_cons, List.map_nil, hsort]
    rw [List.indexOf_cons_ne _ (by norm_num : (10 : ℚ) ≠ 21 / 2)]
    simp
  refine ⟨beadingRanksOf_perm hnd, rfl, ?_, markersFor_rank_heading_invariant,
    hex⟩
  intro x hx y hy hxy
  exact indexOf_lt_of_sorted (sortAsc_sorted l)
    ((sortAsc_perm l).mem_iff.mpr hx) ((sortAsc_perm l).mem_iff.mpr hy) hxy

/-- Witness for the amended C2 theorem on the two-bearing list `[10, 350]`. -/
theorem C2_verticalRank_permutation_witness :
    ([(10 : ℝ), 350] : List ℝ).Nodup ∧
    List.Perm (beadingRanksOf [(10 : ℝ), 350]) (List.range 2) := by
  have hnd : ([(10 : ℝ), 350] : List ℝ).Nodup := by norm_num
  exact ⟨hnd, (C2_verticalRank_permutation hnd).1⟩

theorem jsMod_540_360 : jsMod (540 : ℝ) 360 = 180 := by
  have hf : ⌊(540 : ℝ) / 360⌋ = 1 := by
    rw [Int.floor_eq_iff]
    constructor <;> norm_num
  rw [jsMod_eval (by norm_num) (by norm_num) hf]
  norm_num

theorem bearingBetween_mk (plat plng qlat qlng : ℝ) :
    bearingBetween ⟨plat, plng⟩ ⟨qlat, qlng⟩ =
      jsMod (atan2 (Real.sin (toRad (qlng - plng)) * Real.cos (toRad qlat))
        (Real.cos (toRad plat) * Real.sin (toRad qlat) -
          Real.sin (toRad plat) * Real.cos (toRad qlat) *
            Real.cos (toRad (qlng - plng))) * 180 / Real.pi + 360) 360 := rfl

theorem sin_toRad_milli_pos : 0 < Real.sin (toRad (1 / 1000)) := by
  apply Real.sin_pos_of_pos_of_lt_pi
  · simp only [toRad]
    positivity
  · simp only [toRad]
    nlinarith [Real.pi_pos]

theorem bearingBetween_origin_north :
    bearingBetween userOrigin ⟨1 / 1000, 0⟩ = 0 := by
  rw [show userOrigin = (⟨0, 0⟩ : Coord) from rfl, bearingBetween_mk]
  rw [show ((0 : ℝ) - 0) = 0 by norm_num, show toRad 0 = 0 by simp [toRad]]
  rw [Real.sin_zero, Real.cos_zero]
  rw [show (0 : ℝ) * Real.cos (toRad (1 / 1000)) = 0 by ring]
  rw [show (1 : ℝ) * Real.sin (toRad (1 / 1000)) - 0 * 1 =
      Real.sin (toRad (1 / 1000)) by ring]
  rw [atan2_zero_of_pos sin_toRad_milli_pos, zero_mul, zero_div, zero_add,
    jsMod_360_360]

theorem bearingBetween_origin_south :
    bearingBetween userOrigin ⟨-(1 / 1000), 0⟩ = 180 := by
  have hneg : Real.sin (toRad (-(1 / 1000))) < 0 := by
    rw [show toRad (-(1 / 1000)) = -(toRad (1 / 1000)) by
      simp only [toRad]
      ring]
    rw [Real.sin_neg]
    linarith [sin_toRad_milli_pos]
  rw [show userOrigin = (⟨0, 0⟩ : Coord) from rfl, bearingBetween_mk]
  rw [show ((0 : ℝ) - 0) = 0 by norm_num, show toRad 0 = 0 by simp [toRad]]
  rw [Real.sin_zero, Real.cos_zero]
  rw [show (0 : ℝ) * Real.cos (toRad (-(1 / 1000))) = 0 by ring]
  rw [show (1 : ℝ) * Real.sin (toRad (-(1 / 1000))) - 0 * 1 =
      Real.sin (toRad (-(1 / 1000))) by ring]
  rw [atan2_zero_of_neg hneg]
  rw [show Real.pi * 180 / Real.pi = 180 by
    field_simp]
  rw [show (180 : ℝ) + 360 = 540 by norm_num, jsMod_540_360]

/-- Claim C7 is the intended behavior, but the code has a slip: the radial
view iterates the filtered list `buildings().filter(v => v.label !== 'yes')`
while `beadings()![index()]` and `beadingRanks()![index()]` index the memos
computed over the unfiltered list, so a rendered marker can use another
building's bearing.  Concretely, with a placeholder-labelled building due
north (bearing 0) listed before a named building due south (bearing 180),
the single rendered marker is labelled `"B"` but is laid out with the
placeholder building's bearing 0 instead of its own bearing 180 — while
its distance (computed from the building record itself, not the memo) is
the south building's.  The filter itself is indeed applied only to the
radial marker set, not to the underlying data or the list view. -/
theorem C7_marker_index_misalignment :
    (markersFor userOrigin (some 0) [bldPlaceholderNorth, bldSouth]).map
        (fun m => (m.label, m.bearingUsed, m.distance)) =
      [("B",
        bearingBetween userOrigin ⟨bldPlaceholderNorth.lat,
          bldPlaceholderNorth.lng⟩,
        distanceBetween userOrigin ⟨bldSouth.lat, bldSouth.lng⟩)] ∧
    bearingBetween userOrigin ⟨bldPlaceholderNorth.lat,
      bldPlaceholderNorth.lng⟩ = 0 ∧
    bearingBetween userOrigin ⟨bldSouth.lat, bldSouth.lng⟩ = 180 ∧
    (0 : ℝ) ≠ 180 ∧
    listViewEntries [bldPlaceholderNorth, bldSouth] =
      [bldPlaceholderNorth, bldSouth] := by
  refine ⟨?_, ?_, ?_, by norm_num, rfl⟩
  · simp [markersFor, bldPlaceholderNorth, bldSouth, List.enum]
  · exact bearingBetween_origin_north
  · exact bearingBetween_origin_south

/-- Claim C10: when the lat or lng query parameter does not parse to a
finite number, the handler answers 400 without contacting the upstream
service; otherwise the upstream service is contacted and the effective
radius — the parsed radius when finite, 200 when not — is clamped into
`[50, 1000]`, and on upstream success that clamped radius is the value
echoed back in the response body (on upstream failure a 502-style error is
returned instead). -/
theorem C10_buildings_handler (q : ApiReq) (up : Bool) :
    ((q.latNum = none ∨ q.lngNum = none) →
      handleBuildings q up = (.badRequest, false)) ∧
    (∀ la ln : ℚ, q.latNum = some la → q.lngNum = some ln →
      (handleBuildings q up).2 = true ∧
      (up = true → handleBuildings q up =
        (.ok (min (max (q.radiusNum.getD 200) 50) 1000), true)) ∧
      (up = false → handleBuildings q up = (.upstreamFailure, true)) ∧
      50 ≤ min (max (q.radiusNum.getD 200) 50) 1000 ∧
      min (max (q.radiusNum.getD 200) 50) 1000 ≤ 1000 ∧
      (q.radiusNum = none → (q.radiusNum.getD 200 : ℚ) = 200)) := by
  obtain ⟨la?, ln?, r?⟩ := q
  constructor
  · rintro (h | h) <;> subst h
    · cases ln? <;> rfl
    · cases la? <;> rfl
  · rintro la ln rfl rfl
    have hmatch : (match r? with | some r => r | none => (200 : ℚ)) =
        r?.getD 200 := by
      cases r? <;> rfl
    have hb1 : (50 : ℚ) ≤ min (max (r?.getD 200) 50) 1000 :=
      le_min (le_max_right _ _) (by norm_num)
    have hb2 : min (max (r?.getD 200) 50) (1000 : ℚ) ≤ 1000 :=
      min_le_right _ _
    refine ⟨?_, ?_, ?_, hb1, hb2, ?_⟩
    · cases up <;> rfl
    · intro hup
      subst hup
      simp only [handleBuildings, hmatch, if_true]
    · intro hup
      subst hup
      simp only [handleBuildings, hmatch]
      rfl
    · intro hr
      subst hr
      rfl

/-- Witness for C10: a request with unparseable lat (400 without upstream
contact) and a valid request with an oversized radius of 5000 (clamped to
1000 and echoed). -/
theorem C10_buildings_handler_witness :
    handleBuildings ⟨none, some 1, none⟩ true = (.badRequest, false) ∧
    handleBuildings ⟨some 35, some 139, some 5000⟩ true =
      (.ok (min (max ((5000 : ℚ)) 50) 1000), true) ∧
    (50 : ℚ) ≤ min (max ((5000 : ℚ)) 50) 1000 ∧
    min (max ((5000 : ℚ)) 50) 1000 ≤ 1000 := by
  have h400 := (C10_buildings_handler ⟨none, some 1, none⟩ true).1 (Or.inl rfl)
  have hok := (C10_buildings_handler ⟨some 35, some 139, some 5000⟩ true).2
    35 139 rfl rfl
  exact ⟨h400, hok.2.1 rfl, hok.2.2.2.1, hok.2.2.2.2.1⟩

end CompassXR
